import Mathlib

/-!
# Verification of the vosk-api streaming recognizer contract

The repository ships `src/vosk_api.h`, a declarations-only C header; the
behavior of every operation is therefore modelled from the accompanying
specification (spec.md): Model reference counting, the Recognizer pipeline
(audio ingestion, the Endpointer state machine, the result queue) and the
process-wide log-level setting.  Real-valued sample rates and endpointer
delay thresholds are embedded as rationals; C pointers that may be NULL are
embedded as `Option`; C functions that can fail are embedded as `Except` or
`Option` returns.
-/

namespace Vosk

/-- Error taxonomy of spec.md §7. -/
inductive VoskError
  | LoadError
  | InvalidRate
  | InvalidInput
  | QueueEmpty
deriving DecidableEq, Repr

/-- Modelled from the spec: `VoskModel` (no implementation under src/; the
header only declares `struct VoskModel`).  Per spec.md §3 a Model carries a
reference count, and its backing resources are destroyed exactly when the
count transitions to zero; `destroyed` records that the backing resources
have been freed. -/
structure VoskModel where
  refcount : Nat
  destroyed : Bool
deriving DecidableEq, Repr

/-- Modelled from the spec: `acquire()` of spec.md §4.1 — internal refcount
increment invoked by Recognizer construction. -/
def VoskModel.acquire (m : VoskModel) : VoskModel :=
  { m with refcount := m.refcount + 1 }

/-- Modelled from the spec: `release()` of spec.md §4.1 — decrements the
count and destroys backing resources exactly when the count reaches zero. -/
def VoskModel.release (m : VoskModel) : VoskModel :=
  { refcount := m.refcount - 1,
    destroyed := m.destroyed || decide (m.refcount - 1 = 0) }

/-- Modelled from the spec: `vosk_model_free` (header line 50) — releases
one reference to the model. -/
def vosk_model_free (m : VoskModel) : VoskModel :=
  m.release

/-- `VoskEndpointerMode` — the four named presets, from the header enum. -/
inductive VoskEndpointerMode
  | VOSK_EP_ANSWER_DEFAULT
  | VOSK_EP_ANSWER_SHORT
  | VOSK_EP_ANSWER_LONG
  | VOSK_EP_ANSWER_VERY_LONG
deriving DecidableEq, Repr

/-- The endpointer delay triple of spec.md §3 (t_start_max, t_end, t_max). -/
structure EpDelays where
  t_start_max : ℚ
  t_end : ℚ
  t_max : ℚ
deriving DecidableEq, Repr

/-- Modelled from the spec: each named mode maps to a canonical delay
triple (spec.md §3); the spec fixes no numeric values, so representative
values in the ranges documented in the header are used.  No claim depends
on the particular numbers. -/
def epModeDelays : VoskEndpointerMode → EpDelays
  | .VOSK_EP_ANSWER_DEFAULT => ⟨5, 1, 30⟩
  | .VOSK_EP_ANSWER_SHORT => ⟨5, (1 : ℚ) / 2, 20⟩
  | .VOSK_EP_ANSWER_LONG => ⟨10, 2, 60⟩
  | .VOSK_EP_ANSWER_VERY_LONG => ⟨20, 4, 120⟩

/-- Endpointer states of spec.md §4.3. -/
inductive EpState
  | WAITING_START
  | IN_SPEECH
  | POSSIBLE_END
  | FINALIZED
deriving DecidableEq, Repr

/-- Per-frame speech/silence classification delivered by the Decoder
(spec.md §4.3). -/
inductive FrameClass
  | Speech
  | Silence
deriving DecidableEq, Repr

/-- Modelled from the spec: the external Decoder capability (out of scope
per spec.md §1) — an opaque classifier of audio into speech/silence plus a
transcript producer; both are arbitrary parameters of the development. -/
structure Decoder where
  classify : List Int → FrameClass
  transcribe : List Int → String

/-- Modelled from the spec: `VoskRecognizer` per-stream state (spec.md §3):
a shared Model reference, the fixed sample rate, Endpointer configuration
and state with its two timers (`since_change`: elapsed since the last state
change; `utt_dur`: total utterance duration), in-flight decode state, the
decode trace (chunks in the order the decode path consumed them), the
FIFO ResultQueue, the produced-result counter and the pending work queue of
submitted but not yet decoded chunks. -/
structure VoskRecognizer where
  model : VoskModel
  sample_rate : ℚ
  ep_mode : VoskEndpointerMode
  delays : EpDelays
  ep_state : EpState
  since_change : ℚ
  utt_dur : ℚ
  decode_state : List Int
  decode_trace : List (List Int)
  result_queue : List String
  num_results : Nat
  pending : List (List Int)
deriving DecidableEq, Repr

/-- Modelled from the spec: `vosk_recognizer_new` (header line 62, spec.md
§4.5) — fails (NULL sentinel, embedded as `none`) iff the sample rate is
non-positive; otherwise acquires a Model reference and starts with the
DEFAULT endpointer mode, an empty ResultQueue and no pending work. -/
def vosk_recognizer_new (m : VoskModel) (sample_rate : ℚ) :
    Option VoskRecognizer :=
  if sample_rate ≤ 0 then none
  else
    some { model := m.acquire
           sample_rate := sample_rate
           ep_mode := .VOSK_EP_ANSWER_DEFAULT
           delays := epModeDelays .VOSK_EP_ANSWER_DEFAULT
           ep_state := .WAITING_START
           since_change := 0
           utt_dur := 0
           decode_state := []
           decode_trace := []
           result_queue := []
           num_results := 0
           pending := [] }

/-- Modelled from the spec: `vosk_recognizer_free` (header line 156) —
releases the Recognizer and unreferences the underlying model; the
surviving model state is returned. -/
def vosk_recognizer_free (r : VoskRecognizer) : VoskModel :=
  r.model.release

/-- Modelled from the spec: FINALIZED handling of spec.md §4.3/§4.5 — the
queue receives the transcript of the current decode state, the
produced-result counter advances, and the Endpointer resets to
WAITING_START (with fresh timers and decode state) for the next utterance
within the same stream. -/
def VoskRecognizer.finalize (dec : Decoder) (r : VoskRecognizer) :
    VoskRecognizer :=
  { r with result_queue := r.result_queue ++ [dec.transcribe r.decode_state]
           num_results := r.num_results + 1
           decode_state := []
           ep_state := .WAITING_START
           since_change := 0
           utt_dur := 0 }

/-- Modelled from the spec: the Endpointer transition table of spec.md §4.3,
driven per frame by the Decoder's speech/silence classification and the two
timers, advanced here by the frame duration `dt`.  The forced-end check
against `t_max` applies regardless of the current classification. -/
def VoskRecognizer.epAdvance (dec : Decoder) (r : VoskRecognizer)
    (cls : FrameClass) (dt : ℚ) : VoskRecognizer :=
  match r.ep_state with
  | .WAITING_START =>
    match cls with
    | .Speech =>
      { r with ep_state := .IN_SPEECH, since_change := 0, utt_dur := dt }
    | .Silence =>
      if r.delays.t_start_max < r.since_change + dt then r.finalize dec
      else { r with since_change := r.since_change + dt }
  | .IN_SPEECH =>
    if r.delays.t_max ≤ r.utt_dur + dt then r.finalize dec
    else
      match cls with
      | .Speech =>
        { r with since_change := r.since_change + dt,
                 utt_dur := r.utt_dur + dt }
      | .Silence =>
        { r with ep_state := .POSSIBLE_END, since_change := 0,
                 utt_dur := r.utt_dur + dt }
  | .POSSIBLE_END =>
    if r.delays.t_max ≤ r.utt_dur + dt then r.finalize dec
    else
      match cls with
      | .Speech =>
        if r.since_change + dt < r.delays.t_end then
          { r with ep_state := .IN_SPEECH, since_change := 0,
                   utt_dur := r.utt_dur + dt }
        else r.finalize dec
      | .Silence =>
        if r.delays.t_end ≤ r.since_change + dt then r.finalize dec
        else
          { r with since_change := r.since_change + dt,
                   utt_dur := r.utt_dur + dt }
  | .FINALIZED => r.finalize dec

/-- Duration in seconds of a chunk of canonical samples at a sample rate. -/
def chunkDur (rate : ℚ) (c : List Int) : ℚ :=
  (c.length : ℚ) / rate

/-- Sum of the durations of a list of chunks. -/
def dursSum (rate : ℚ) (cs : List (List Int)) : ℚ :=
  (cs.map (chunkDur rate)).sum

/-- Modelled from the spec: the decode path consuming one normalized chunk
(spec.md §4.5) — the chunk is recorded on the decode trace, appended to the
in-flight decode state, and the Endpointer advances by the chunk's
classification and duration. -/
def VoskRecognizer.stepChunk (dec : Decoder) (r : VoskRecognizer)
    (c : List Int) : VoskRecognizer :=
  ({ r with decode_trace := r.decode_trace ++ [c],
            decode_state := r.decode_state ++ c }).epAdvance
    dec (dec.classify c) (chunkDur r.sample_rate c)

/-- The decode worker consuming a list of chunks in order (single consumer,
FIFO — spec.md §5). -/
def processChunks (dec : Decoder) : List (List Int) → VoskRecognizer →
    VoskRecognizer
  | [], r => r
  | c :: cs, r => processChunks dec cs (r.stepChunk dec c)

/-- Modelled from the spec: draining the pending work queue — every
submitted chunk is decoded, in submission order (spec.md §5). -/
def VoskRecognizer.drain (dec : Decoder) (r : VoskRecognizer) :
    VoskRecognizer :=
  processChunks dec r.pending { r with pending := [] }

/-- Modelled from the spec: submission of one chunk to the FIFO work queue
(spec.md §4.5/§5) — the pending-chunk count grows by one. -/
def VoskRecognizer.submit (r : VoskRecognizer) (c : List Int) :
    VoskRecognizer :=
  { r with pending := r.pending ++ [c] }

/-- Modelled from the spec: one `accept_waveform` processing round —
submission to the work queue followed by the decode worker consuming all
queued work (the spec allows the fully synchronous schedule, spec.md §9). -/
def VoskRecognizer.processChunk (dec : Decoder) (r : VoskRecognizer)
    (c : List Int) : VoskRecognizer :=
  (r.submit c).drain dec

/-- Decode one pair of little-endian bytes into a signed 16-bit sample. -/
def byteToSample (lo hi : Nat) : Int :=
  let u := lo % 256 + 256 * (hi % 256)
  if u < 32768 then (u : Int) else (u : Int) - 65536

/-- Modelled from the spec: AudioIngest normalization of a 16-bit PCM byte
buffer into canonical samples (spec.md §4.2). -/
def bytesToSamples : List Nat → List Int
  | lo :: hi :: rest => byteToSample lo hi :: bytesToSamples rest
  | _ => []

/-- Modelled from the spec: AudioIngest float scaling (spec.md §4.2) —
[-1, 1] mapped onto the full signed 16-bit range, clamped. -/
def floatToSample (x : ℚ) : Int :=
  max (-32768) (min 32767 (round (x * 32767)))

/-- Modelled from the spec: the shared `InvalidInput` validation of all
three audio-submission variants (spec.md §4.2) — the length is negative,
or the buffer pointer is absent while the length is nonzero. -/
def badInput {α : Type} (data : Option (List α)) (length : Int) : Prop :=
  length < 0 ∨ (data.isNone = true ∧ length ≠ 0)

instance {α : Type} (data : Option (List α)) (length : Int) :
    Decidable (badInput data length) := by
  unfold badInput
  infer_instance

/-- Modelled from the spec: `vosk_recognizer_accept_waveform` (header line
71) — 16-bit PCM bytes, `length` counted in bytes; fails with
`InvalidInput` on a negative length or an absent buffer with nonzero
length, otherwise ingests and processes the chunk. -/
def vosk_recognizer_accept_waveform (dec : Decoder) (r : VoskRecognizer)
    (data : Option (List Nat)) (length : Int) :
    Except VoskError VoskRecognizer :=
  if badInput data length then .error .InvalidInput
  else .ok (r.processChunk dec
    (bytesToSamples ((data.getD []).take length.toNat)))

/-- Modelled from the spec: `vosk_recognizer_accept_waveform_s` (header
line 76) — native 16-bit samples. -/
def vosk_recognizer_accept_waveform_s (dec : Decoder) (r : VoskRecognizer)
    (data : Option (List Int)) (length : Int) :
    Except VoskError VoskRecognizer :=
  if badInput data length then .error .InvalidInput
  else .ok (r.processChunk dec ((data.getD []).take length.toNat))

/-- Modelled from the spec: `vosk_recognizer_accept_waveform_f` (header
line 81) — floating-point samples, scaled to the canonical range. -/
def vosk_recognizer_accept_waveform_f (dec : Decoder) (r : VoskRecognizer)
    (data : Option (List ℚ)) (length : Int) :
    Except VoskError VoskRecognizer :=
  if badInput data length then .error .InvalidInput
  else .ok (r.processChunk dec
    (((data.getD []).take length.toNat).map floatToSample))

/-- Modelled from the spec: `vosk_recognizer_result_front` (header line
100, spec.md §4.4) — returns the head of the ResultQueue without removing
it (`none` is the empty sentinel); the returned state is the post-call
Recognizer state, making side-effect-freedom expressible. -/
def vosk_recognizer_result_front (r : VoskRecognizer) :
    Option String × VoskRecognizer :=
  (r.result_queue.head?, r)

/-- Modelled from the spec: `vosk_recognizer_result_pop` (header line 104,
spec.md §4.4) — removes the head; a no-op when the queue is empty. -/
def vosk_recognizer_result_pop (r : VoskRecognizer) : VoskRecognizer :=
  { r with result_queue := r.result_queue.tail }

/-- Modelled from the spec: `vosk_recognizer_results_empty` (header line
116) — nonzero iff the ResultQueue holds no entries. -/
def vosk_recognizer_results_empty (r : VoskRecognizer) : Int :=
  if r.result_queue = [] then 1 else 0

/-- Modelled from the spec: ResultQueue `count()` (spec.md §4.4) — number
of entries currently queued. -/
def VoskRecognizer.count (r : VoskRecognizer) : Nat :=
  r.result_queue.length

/-- Modelled from the spec: `pending_count()` /
`vosk_recognizer_get_num_pending_results` (header line 108) — number of
chunks accepted but not yet fully processed. -/
def VoskRecognizer.pending_count (r : VoskRecognizer) : Nat :=
  r.pending.length

/-- Modelled from the spec: `vosk_recognizer_get_num_results` (header line
112) — the produced-result counter. -/
def vosk_recognizer_get_num_results (r : VoskRecognizer) : Nat :=
  r.num_results

/-- Modelled from the spec: `vosk_recognizer_flush` (header line 120,
spec.md §4.5/§5) — drains all queued work, then forces the Endpointer to
finalize any in-progress utterance: one entry is pushed exactly when the
post-drain Endpointer state is non-initial. -/
def vosk_recognizer_flush (dec : Decoder) (r : VoskRecognizer) :
    VoskRecognizer :=
  let rd := r.drain dec
  if rd.ep_state = .WAITING_START then rd else rd.finalize dec

/-- Modelled from the spec: `vosk_recognizer_reset` (header line 126,
spec.md §4.5) — discards pending work and decode state, clears the
ResultQueue and both counters, returns the Endpointer to WAITING_START;
the Model reference and the sample rate are untouched. -/
def vosk_recognizer_reset (r : VoskRecognizer) : VoskRecognizer :=
  { r with ep_state := .WAITING_START
           since_change := 0
           utt_dur := 0
           decode_state := []
           result_queue := []
           num_results := 0
           pending := [] }

/-- Modelled from the spec: `vosk_recognizer_set_endpointer_mode` (header
line 140) — replaces the active delay triple with the mode's canonical
values. -/
def vosk_recognizer_set_endpointer_mode (r : VoskRecognizer)
    (mode : VoskEndpointerMode) : VoskRecognizer :=
  { r with ep_mode := mode, delays := epModeDelays mode }

/-- Modelled from the spec: `vosk_recognizer_set_endpointer_delays` (header
line 150) — explicit override of the active triple. -/
def vosk_recognizer_set_endpointer_delays (r : VoskRecognizer)
    (a b c : ℚ) : VoskRecognizer :=
  { r with delays := ⟨a, b, c⟩ }

/-- Retrieval loop: repeatedly peek with `result_front` and remove with
`result_pop` until the empty sentinel, collecting at most `fuel` results. -/
def retrieveAux : Nat → VoskRecognizer → List String
  | 0, _ => []
  | fuel + 1, r =>
    match (vosk_recognizer_result_front r).1 with
    | none => []
    | some s => s :: retrieveAux fuel (vosk_recognizer_result_pop r)

/-- All results obtainable from a Recognizer by the front/pop protocol, in
retrieval order. -/
def retrieveAll (r : VoskRecognizer) : List String :=
  retrieveAux r.result_queue.length r

/-- The public operations of the API, as data, for whole-run statements. -/
inductive VoskOp
  | acceptBytes (data : Option (List Nat)) (len : Int)
  | acceptShorts (data : Option (List Int)) (len : Int)
  | acceptFloats (data : Option (List ℚ)) (len : Int)
  | flush
  | reset
  | pop
  | setMode (mode : VoskEndpointerMode)
  | setDelays (a b c : ℚ)
  | setLogLevel (l : Int)
deriving Repr

/-- Modelled from the spec: the effect of one public call on the Recognizer
state.  A rejected audio submission (`InvalidInput`) leaves the Recognizer
unchanged; `setLogLevel` does not touch the Recognizer at all. -/
def applyOp (dec : Decoder) (op : VoskOp) (r : VoskRecognizer) :
    VoskRecognizer :=
  match op with
  | .acceptBytes data len =>
    match vosk_recognizer_accept_waveform dec r data len with
    | .ok r2 => r2
    | .error _ => r
  | .acceptShorts data len =>
    match vosk_recognizer_accept_waveform_s dec r data len with
    | .ok r2 => r2
    | .error _ => r
  | .acceptFloats data len =>
    match vosk_recognizer_accept_waveform_f dec r data len with
    | .ok r2 => r2
    | .error _ => r
  | .flush => vosk_recognizer_flush dec r
  | .reset => vosk_recognizer_reset r
  | .pop => vosk_recognizer_result_pop r
  | .setMode mode => vosk_recognizer_set_endpointer_mode r mode
  | .setDelays a b c => vosk_recognizer_set_endpointer_delays r a b c
  | .setLogLevel _ => r

/-- Modelled from the spec: the diagnostic messages one call emits at a
given process-wide verbosity level (spec.md §6: default 0 prints info,
negative suppresses info, positive adds debug output). -/
def opDiag (level : Int) (op : VoskOp) : List String :=
  (if 0 ≤ level then ["info: call handled"] else []) ++
    (if 0 < level then ["debug: call detail"] else []) ++
      (match op with
       | .setLogLevel _ => ["log level updated"]
       | _ => [])

/-- Whole-process state: the verbosity level (header line 166), the
Recognizer, and the accumulated diagnostic output. -/
structure SysState where
  log_level : Int
  recog : VoskRecognizer
  diag : List String

/-- Modelled from the spec: `vosk_set_log_level` (header line 166) — sets
the process-wide verbosity, touching nothing else. -/
def vosk_set_log_level (s : SysState) (log_level : Int) : SysState :=
  { s with log_level := log_level }

/-- One public call against the whole-process state: diagnostics are
appended according to the current verbosity, the Recognizer evolves by
`applyOp`, and `setLogLevel` updates the verbosity. -/
def runOp (dec : Decoder) (s : SysState) (op : VoskOp) : SysState :=
  match op with
  | .setLogLevel l =>
    { vosk_set_log_level s l with diag := s.diag ++ opDiag s.log_level op }
  | _ =>
    { s with recog := applyOp dec op s.recog,
             diag := s.diag ++ opDiag s.log_level op }

/-- A whole run: a sequence of public calls against the process state. -/
def runOps (dec : Decoder) : List VoskOp → SysState → SysState
  | [], s => s
  | op :: ops, s => runOps dec ops (runOp dec s op)

/-! ## Concrete sample states used by the witness theorems -/

/-- A live model with one owner. -/
def mA : VoskModel := { refcount := 1, destroyed := false }

/-- A decoder stub that classifies everything as speech. -/
def decSpeech : Decoder :=
  { classify := fun _ => .Speech, transcribe := fun _ => "hello" }

/-- The recognizer `vosk_recognizer_new mA 16000` yields. -/
def rA : VoskRecognizer :=
  { model := mA.acquire
    sample_rate := 16000
    ep_mode := .VOSK_EP_ANSWER_DEFAULT
    delays := epModeDelays .VOSK_EP_ANSWER_DEFAULT
    ep_state := .WAITING_START
    since_change := 0
    utt_dur := 0
    decode_state := []
    decode_trace := []
    result_queue := []
    num_results := 0
    pending := [] }

/-- A recognizer mid-utterance: IN_SPEECH at sample rate 1 with a forced
utterance end of 2 seconds. -/
def rB : VoskRecognizer :=
  { rA with ep_state := .IN_SPEECH, sample_rate := 1, delays := ⟨5, 1, 2⟩ }

/-! ## Helper lemmas -/

/-- The `InvalidInput` condition, in the spec's phrasing. -/
theorem badInput_iff {α : Type} (data : Option (List α)) (len : Int) :
    badInput data len ↔ len < 0 ∨ (data = none ∧ len ≠ 0) := by
  simp [badInput, Option.isNone_iff_eq_none]

/-- Case analysis of the guarded submission pattern shared by the three
accept variants. -/
theorem exceptIfSpec (p : Prop) [Decidable p] (x : VoskRecognizer) :
    ((if p then (Except.error VoskError.InvalidInput :
        Except VoskError VoskRecognizer)
      else Except.ok x) = Except.error VoskError.InvalidInput ↔ p) ∧
    ((∃ r2, (if p then (Except.error VoskError.InvalidInput :
        Except VoskError VoskRecognizer)
      else Except.ok x) = Except.ok r2) ↔ ¬p) := by
  by_cases hp : p <;> simp [hp]

/-! ## Claims -/

/-- C1: Recognizer creation fails (returning the `none` sentinel) iff the
sample rate is non-positive; on success it has acquired one Model
reference, its Endpointer mode is DEFAULT and its ResultQueue is empty. -/
theorem c1_recognizer_new_contract (m : VoskModel) (rate : ℚ) :
    (vosk_recognizer_new m rate = none ↔ rate ≤ 0) ∧
    (∀ r : VoskRecognizer, vosk_recognizer_new m rate = some r →
      r.model.refcount = m.refcount + 1 ∧
      r.ep_mode = .VOSK_EP_ANSWER_DEFAULT ∧
      r.result_queue = []) := by
  constructor
  · by_cases h : rate ≤ 0 <;> simp [vosk_recognizer_new, h]
  · intro r hr
    by_cases h : rate ≤ 0
    · simp [vosk_recognizer_new, h] at hr
    · simp only [vosk_recognizer_new, if_neg h, Option.some.injEq] at hr
      subst hr
      exact ⟨rfl, rfl, rfl⟩

/-- Witness for C1 at the concrete model `mA` and rate 16000. -/
theorem c1_witness :
    rA.model.refcount = mA.refcount + 1 ∧
    rA.ep_mode = .VOSK_EP_ANSWER_DEFAULT ∧
    rA.result_queue = [] :=
  (c1_recognizer_new_contract mA 16000).2 rA (by
    simp [vosk_recognizer_new, rA])

/-- C2: creating a Recognizer on a Model and then freeing it (no audio
submitted) leaves the Model's refcount at its pre-creation value, and
`release` marks the backing resources destroyed exactly when the count
reaches zero. -/
theorem c2_refcount_balance :
    (∀ (m : VoskModel) (rate : ℚ) (r : VoskRecognizer),
      vosk_recognizer_new m rate = some r →
      (vosk_recognizer_free r).refcount = m.refcount) ∧
    (∀ m : VoskModel, m.destroyed = false →
      ((vosk_model_free m).destroyed = true ↔
        (vosk_model_free m).refcount = 0)) := by
  constructor
  · intro m rate r hr
    by_cases h : rate ≤ 0
    · simp [vosk_recognizer_new, h] at hr
    · simp only [vosk_recognizer_new, if_neg h, Option.some.injEq] at hr
      subst hr
      simp [vosk_recognizer_free, VoskModel.release, VoskModel.acquire]
  · intro m hm
    simp [vosk_model_free, VoskModel.release, hm]

/-- Witness for C2 at the concrete model `mA` and rate 16000. -/
theorem c2_witness :
    (vosk_recognizer_free rA).refcount = mA.refcount ∧
    ((vosk_model_free mA).destroyed = true ↔
      (vosk_model_free mA).refcount = 0) :=
  ⟨c2_refcount_balance.1 mA 16000 rA (by
      simp [vosk_recognizer_new, rA]),
    c2_refcount_balance.2 mA rfl⟩

/-- C5: `reset` zeroes `count` and `pending_count`, clears the ResultQueue
and the decode state (Endpointer back to WAITING_START), and leaves the
Model reference and the sample rate unchanged. -/
theorem c5_reset_frame (r : VoskRecognizer) :
    (vosk_recognizer_reset r).count = 0 ∧
    (vosk_recognizer_reset r).pending_count = 0 ∧
    (vosk_recognizer_reset r).result_queue = [] ∧
    (vosk_recognizer_reset r).decode_state = [] ∧
    (vosk_recognizer_reset r).num_results = 0 ∧
    (vosk_recognizer_reset r).ep_state = .WAITING_START ∧
    (vosk_recognizer_reset r).model = r.model ∧
    (vosk_recognizer_reset r).sample_rate = r.sample_rate := by
  simp [vosk_recognizer_reset, VoskRecognizer.count,
    VoskRecognizer.pending_count]

/-- C6: on a non-empty ResultQueue, `result_front` returns the head without
removing it; a second call returns the same value and the queue state is
unchanged by either call. -/
theorem c6_front_idempotent (r : VoskRecognizer)
    (h : r.result_queue ≠ []) :
    (vosk_recognizer_result_front r).1 = some (r.result_queue.head h) ∧
    (vosk_recognizer_result_front r).2 = r ∧
    (vosk_recognizer_result_front
      (vosk_recognizer_result_front r).2).1 =
      (vosk_recognizer_result_front r).1 ∧
    (vosk_recognizer_result_front
      (vosk_recognizer_result_front r).2).2 = r := by
  refine ⟨?_, rfl, rfl, rfl⟩
  simp [vosk_recognizer_result_front, List.head?_eq_head h]

/-- Witness for C6 on a recognizer holding one queued result. -/
theorem c6_witness :
    (vosk_recognizer_result_front
      { rA with result_queue := ["hello"] }).1 = some "hello" :=
  (c6_front_idempotent { rA with result_queue := ["hello"] }
    (by simp)).1

/-- C10: `results_empty` is nonzero exactly when the ResultQueue holds no
entries, exactly when `result_front` returns the empty sentinel, and
exactly when `result_pop` is a no-op. -/
theorem c10_results_empty_agrees (r : VoskRecognizer) :
    (vosk_recognizer_results_empty r ≠ 0 ↔ r.result_queue = []) ∧
    (vosk_recognizer_results_empty r ≠ 0 ↔
      (vosk_recognizer_result_front r).1 = none) ∧
    (vosk_recognizer_results_empty r ≠ 0 ↔
      vosk_recognizer_result_pop r = r) := by
  refine ⟨?_, ?_, ?_⟩
  · by_cases h : r.result_queue = [] <;>
      simp [vosk_recognizer_results_empty, h]
  · by_cases h : r.result_queue = [] <;>
      simp [vosk_recognizer_results_empty, vosk_recognizer_result_front, h]
  · by_cases h : r.result_queue = []
    · have h2 : vosk_recognizer_result_pop r = r := by
        cases r
        simp_all [vosk_recognizer_result_pop]
      simp [vosk_recognizer_results_empty, h, h2]
    · have h2 : vosk_recognizer_result_pop r ≠ r := by
        intro heq
        have hlen := congrArg (fun s => List.length s.result_queue) heq
        simp only [vosk_recognizer_result_pop] at hlen
        rcases hq : r.result_queue with _ | ⟨a, t⟩
        · exact h hq
        · rw [hq] at hlen
          simp at hlen
      exact iff_of_false (by simp [vosk_recognizer_results_empty, h]) h2

/-- C3: on a quiescent Recognizer (no pending work), `flush` grows the
ResultQueue by exactly one entry when the Endpointer holds an unfinalized
utterance (any non-initial state) and by zero entries otherwise; in
particular, flushing a freshly constructed Recognizer with no audio
submitted leaves the ResultQueue empty. -/
theorem c3_flush_queue_growth :
    (∀ (dec : Decoder) (r : VoskRecognizer), r.pending = [] →
      (vosk_recognizer_flush dec r).result_queue.length =
        r.result_queue.length +
          (if r.ep_state = .WAITING_START then 0 else 1)) ∧
    (∀ (dec : Decoder) (m : VoskModel) (rate : ℚ) (r : VoskRecognizer),
      vosk_recognizer_new m rate = some r →
      (vosk_recognizer_flush dec r).result_queue = []) := by
  constructor
  · intro dec r hq
    unfold vosk_recognizer_flush VoskRecognizer.drain
    rw [hq]
    by_cases h : r.ep_state = .WAITING_START <;>
      simp [processChunks, h, VoskRecognizer.finalize]
  · intro dec m rate r hr
    by_cases h : rate ≤ 0
    · simp [vosk_recognizer_new, h] at hr
    · simp only [vosk_recognizer_new, if_neg h, Option.some.injEq] at hr
      subst hr
      simp [vosk_recognizer_flush, VoskRecognizer.drain, processChunks]

/-- Witness for C3: flushing the freshly constructed `rA`. -/
theorem c3_witness :
    (vosk_recognizer_flush decSpeech rA).result_queue.length =
      rA.result_queue.length +
        (if rA.ep_state = .WAITING_START then 0 else 1) ∧
    (vosk_recognizer_flush decSpeech rA).result_queue = [] :=
  ⟨c3_flush_queue_growth.1 decSpeech rA rfl,
    c3_flush_queue_growth.2 decSpeech mA 16000 rA
      (by simp [vosk_recognizer_new, rA])⟩

/-- C7: each of the three audio-submission variants fails with
`InvalidInput` exactly when the supplied length is negative or the buffer
pointer is absent while the length is nonzero, and succeeds otherwise. -/
theorem c7_accept_invalid_input (dec : Decoder) (r : VoskRecognizer)
    (len : Int) :
    (∀ data : Option (List Nat),
      (vosk_recognizer_accept_waveform dec r data len =
          Except.error VoskError.InvalidInput ↔
        len < 0 ∨ (data = none ∧ len ≠ 0)) ∧
      ((∃ r2, vosk_recognizer_accept_waveform dec r data len =
          Except.ok r2) ↔
        ¬(len < 0 ∨ (data = none ∧ len ≠ 0)))) ∧
    (∀ data : Option (List Int),
      (vosk_recognizer_accept_waveform_s dec r data len =
          Except.error VoskError.InvalidInput ↔
        len < 0 ∨ (data = none ∧ len ≠ 0)) ∧
      ((∃ r2, vosk_recognizer_accept_waveform_s dec r data len =
          Except.ok r2) ↔
        ¬(len < 0 ∨ (data = none ∧ len ≠ 0)))) ∧
    (∀ data : Option (List ℚ),
      (vosk_recognizer_accept_waveform_f dec r data len =
          Except.error VoskError.InvalidInput ↔
        len < 0 ∨ (data = none ∧ len ≠ 0)) ∧
      ((∃ r2, vosk_recognizer_accept_waveform_f dec r data len =
          Except.ok r2) ↔
        ¬(len < 0 ∨ (data = none ∧ len ≠ 0)))) := by
  refine ⟨?_, ?_, ?_⟩ <;> intro data
  · unfold vosk_recognizer_accept_waveform
    exact ⟨(exceptIfSpec _ _).1.trans (badInput_iff data len),
      (exceptIfSpec _ _).2.trans (not_congr (badInput_iff data len))⟩
  · unfold vosk_recognizer_accept_waveform_s
    exact ⟨(exceptIfSpec _ _).1.trans (badInput_iff data len),
      (exceptIfSpec _ _).2.trans (not_congr (badInput_iff data len))⟩
  · unfold vosk_recognizer_accept_waveform_f
    exact ⟨(exceptIfSpec _ _).1.trans (badInput_iff data len),
      (exceptIfSpec _ _).2.trans (not_congr (badInput_iff data len))⟩

/-- The Endpointer transition never rewrites the decode trace. -/
theorem epAdvance_decode_trace (dec : Decoder) (r : VoskRecognizer)
    (cls : FrameClass) (dt : ℚ) :
    (r.epAdvance dec cls dt).decode_trace = r.decode_trace := by
  rcases r with ⟨mo, sr, em, dl, es, sc, ud, dst, dtr, rq, nr, pnd⟩
  cases es <;> cases cls <;>
    simp only [VoskRecognizer.epAdvance, VoskRecognizer.finalize] <;>
    split_ifs <;> rfl

/-- Consuming one chunk appends exactly that chunk to the decode trace. -/
theorem stepChunk_decode_trace (dec : Decoder) (r : VoskRecognizer)
    (c : List Int) :
    (r.stepChunk dec c).decode_trace = r.decode_trace ++ [c] := by
  unfold VoskRecognizer.stepChunk
  rw [epAdvance_decode_trace]

/-- The decode worker consumes a chunk list in exactly the given order. -/
theorem processChunks_decode_trace (dec : Decoder) (cs : List (List Int)) :
    ∀ r : VoskRecognizer,
      (processChunks dec cs r).decode_trace = r.decode_trace ++ cs := by
  induction cs with
  | nil => intro r; simp [processChunks]
  | cons c cs ih =>
    intro r
    simp [processChunks, ih, stepChunk_decode_trace]

/-- The front/pop retrieval loop returns exactly the queued entries. -/
theorem retrieveAux_spec :
    ∀ (q : List String) (r : VoskRecognizer), r.result_queue = q →
      retrieveAux q.length r = q := by
  intro q
  induction q with
  | nil => intro r h; simp [retrieveAux]
  | cons a t ih =>
    intro r h
    simp only [List.length_cons, retrieveAux,
      vosk_recognizer_result_front, h, List.head?_cons, List.cons.injEq,
      true_and]
    exact ih (vosk_recognizer_result_pop r)
      (by simp [vosk_recognizer_result_pop, h])

/-- C8: order is preserved end to end — draining the pending work queue
decodes chunks in submission order (and more generally the decode worker
consumes any chunk list in order, with no reordering), finalization
appends at the ResultQueue tail, and the front/pop retrieval protocol
yields results in exactly the queue (finalization) order. -/
theorem c8_fifo_order (dec : Decoder) :
    (∀ r : VoskRecognizer,
      (r.drain dec).decode_trace = r.decode_trace ++ r.pending) ∧
    (∀ (cs : List (List Int)) (r : VoskRecognizer),
      (processChunks dec cs r).decode_trace = r.decode_trace ++ cs) ∧
    (∀ r : VoskRecognizer,
      (r.finalize dec).result_queue =
        r.result_queue ++ [dec.transcribe r.decode_state]) ∧
    (∀ r : VoskRecognizer, retrieveAll r = r.result_queue) := by
  refine ⟨?_, ?_, ?_, ?_⟩
  · intro r
    unfold VoskRecognizer.drain
    rw [processChunks_decode_trace]
  · intro cs r
    exact processChunks_decode_trace dec cs r
  · intro r
    rfl
  · intro r
    exact retrieveAux_spec r.result_queue r rfl

/-- Running the public calls does not let the verbosity level influence
the Recognizer: equal Recognizer components stay equal under any two
levels. -/
theorem runOps_recog (dec : Decoder) (ops : List VoskOp) :
    ∀ s1 s2 : SysState, s1.recog = s2.recog →
      (runOps dec ops s1).recog = (runOps dec ops s2).recog := by
  induction ops with
  | nil => intro s1 s2 h; simpa [runOps]
  | cons op ops ih =>
    intro s1 s2 h
    simp only [runOps]
    apply ih
    cases op <;> simp [runOp, vosk_set_log_level, h]

/-- C9: two runs of the same call sequence that differ only in the
process-wide log verbosity level produce identical Recognizer states and
identical recognition results — the level affects diagnostics only. -/
theorem c9_log_level_noninterference (dec : Decoder) (l1 l2 : Int)
    (r : VoskRecognizer) (ops : List VoskOp) :
    (runOps dec ops ⟨l1, r, []⟩).recog =
      (runOps dec ops ⟨l2, r, []⟩).recog ∧
    (runOps dec ops ⟨l1, r, []⟩).recog.result_queue =
      (runOps dec ops ⟨l2, r, []⟩).recog.result_queue := by
  have h := runOps_recog dec ops ⟨l1, r, []⟩ ⟨l2, r, []⟩ rfl
  exact ⟨h, by rw [h]⟩

/-- Processing an appended chunk list splits into two processing phases. -/
theorem processChunks_append (dec : Decoder) (cs ds : List (List Int)) :
    ∀ r : VoskRecognizer,
      processChunks dec (cs ++ ds) r =
        processChunks dec ds (processChunks dec cs r) := by
  induction cs with
  | nil => intro r; simp [processChunks]
  | cons c cs ih => intro r; simp [processChunks, ih]

/-- One speech chunk that keeps the utterance strictly below `t_max`
leaves the Endpointer IN_SPEECH, accumulates the duration, and pushes no
result. -/
theorem stepChunk_in_speech (dec : Decoder) (r : VoskRecognizer)
    (c : List Int) (hst : r.ep_state = .IN_SPEECH)
    (hcls : dec.classify c = .Speech)
    (hlt : r.utt_dur + chunkDur r.sample_rate c < r.delays.t_max) :
    (r.stepChunk dec c).ep_state = .IN_SPEECH ∧
    (r.stepChunk dec c).utt_dur =
      r.utt_dur + chunkDur r.sample_rate c ∧
    (r.stepChunk dec c).result_queue = r.result_queue ∧
    (r.stepChunk dec c).sample_rate = r.sample_rate ∧
    (r.stepChunk dec c).delays = r.delays ∧
    (r.stepChunk dec c).num_results = r.num_results := by
  have h1 : ¬ r.delays.t_max ≤ r.utt_dur + chunkDur r.sample_rate c :=
    not_le.mpr hlt
  rcases r with ⟨mo, sr, em, dl, es, sc, ud, dst, dtr, rq, nr, pnd⟩
  simp only at hst
  subst hst
  simp_all only [VoskRecognizer.stepChunk, VoskRecognizer.epAdvance,
    chunkDur]
  simp [hcls, h1]

/-- Once `t_max` is reached, the step from IN_SPEECH finalizes regardless
of the chunk's classification: one result is pushed and the Endpointer
resets to WAITING_START. -/
theorem stepChunk_force_end (dec : Decoder) (r : VoskRecognizer)
    (c : List Int) (hst : r.ep_state = .IN_SPEECH)
    (hge : r.delays.t_max ≤ r.utt_dur + chunkDur r.sample_rate c) :
    (r.stepChunk dec c).ep_state = .WAITING_START ∧
    (r.stepChunk dec c).result_queue.length =
      r.result_queue.length + 1 ∧
    (r.stepChunk dec c).num_results = r.num_results + 1 ∧
    (r.stepChunk dec c).utt_dur = 0 := by
  rcases r with ⟨mo, sr, em, dl, es, sc, ud, dst, dtr, rq, nr, pnd⟩
  simp only at hst
  subst hst
  simp_all only [VoskRecognizer.stepChunk, VoskRecognizer.epAdvance,
    chunkDur]
  simp [hge, VoskRecognizer.finalize]

/-- Chunk durations are nonnegative at a positive sample rate. -/
theorem dursSum_nonneg (rate : ℚ) (hrate : 0 < rate)
    (cs : List (List Int)) : 0 ≤ dursSum rate cs := by
  unfold dursSum
  apply List.sum_nonneg
  intro x hx
  simp only [List.mem_map] at hx
  obtain ⟨y, _, rfl⟩ := hx
  exact div_nonneg (Nat.cast_nonneg _) hrate.le

/-- While cumulative speech stays strictly below `t_max`, the Endpointer
remains IN_SPEECH, accumulating duration, and the ResultQueue does not
grow. -/
theorem processChunks_all_speech (dec : Decoder) (cs : List (List Int)) :
    ∀ r : VoskRecognizer, 0 < r.sample_rate →
      r.ep_state = .IN_SPEECH →
      (∀ c ∈ cs, dec.classify c = .Speech) →
      r.utt_dur + dursSum r.sample_rate cs < r.delays.t_max →
      (processChunks dec cs r).ep_state = .IN_SPEECH ∧
      (processChunks dec cs r).utt_dur =
        r.utt_dur + dursSum r.sample_rate cs ∧
      (processChunks dec cs r).result_queue = r.result_queue ∧
      (processChunks dec cs r).sample_rate = r.sample_rate ∧
      (processChunks dec cs r).delays = r.delays ∧
      (processChunks dec cs r).num_results = r.num_results := by
  induction cs with
  | nil =>
    intro r hrate hst hcls hlt
    simp [processChunks, dursSum, hst]
  | cons c cs ih =>
    intro r hrate hst hcls hlt
    have hsum : dursSum r.sample_rate (c :: cs) =
        chunkDur r.sample_rate c + dursSum r.sample_rate cs := by
      simp [dursSum]
    have hdnn : 0 ≤ chunkDur r.sample_rate c :=
      div_nonneg (Nat.cast_nonneg _) hrate.le
    have hsnn : 0 ≤ dursSum r.sample_rate cs := dursSum_nonneg _ hrate cs
    have hlt1 : r.utt_dur + chunkDur r.sample_rate c < r.delays.t_max := by
      rw [hsum] at hlt
      linarith
    obtain ⟨s1, s2, s3, s4, s5, s6⟩ :=
      stepChunk_in_speech dec r c hst (hcls c (by simp)) hlt1
    have hlt2 : (r.stepChunk dec c).utt_dur +
        dursSum (r.stepChunk dec c).sample_rate cs <
        (r.stepChunk dec c).delays.t_max := by
      rw [s2, s4, s5]
      rw [hsum] at hlt
      linarith
    obtain ⟨t1, t2, t3, t4, t5, t6⟩ := ih (r.stepChunk dec c)
      (by rw [s4]; exact hrate) s1
      (fun x hx => hcls x (by simp [hx])) hlt2
    refine ⟨?_, ?_, ?_, ?_, ?_, ?_⟩ <;>
      simp only [processChunks]
    · exact t1
    · rw [t2, s2, s4, hsum]
      ring
    · rw [t3, s3]
    · rw [t4, s4]
    · rw [t5, s5]
    · rw [t6, s6]

/-- C4: for a stream of continuous speech, the moment the cumulative
utterance duration reaches `t_max` the Endpointer — still IN_SPEECH up to
that point — finalizes (forced end): exactly one result is pushed and the
state resets, even though speech never paused. -/
theorem c4_forced_end_at_t_max (dec : Decoder) (r : VoskRecognizer)
    (cs : List (List Int)) (c : List Int)
    (hrate : 0 < r.sample_rate)
    (hst : r.ep_state = .IN_SPEECH)
    (hcls : ∀ x ∈ cs, dec.classify x = .Speech)
    (hlt : r.utt_dur + dursSum r.sample_rate cs < r.delays.t_max)
    (hge : r.delays.t_max ≤
      r.utt_dur + dursSum r.sample_rate cs + chunkDur r.sample_rate c) :
    (processChunks dec cs r).ep_state = .IN_SPEECH ∧
    (processChunks dec cs r).result_queue = r.result_queue ∧
    (processChunks dec (cs ++ [c]) r).result_queue.length =
      r.result_queue.length + 1 ∧
    (processChunks dec (cs ++ [c]) r).num_results = r.num_results + 1 ∧
    (processChunks dec (cs ++ [c]) r).ep_state = .WAITING_START := by
  obtain ⟨s1, s2, s3, s4, s5, s6⟩ :=
    processChunks_all_speech dec cs r hrate hst hcls hlt
  have happ : processChunks dec (cs ++ [c]) r =
      (processChunks dec cs r).stepChunk dec c := by
    rw [processChunks_append]
    simp [processChunks]
  have hge2 : (processChunks dec cs r).delays.t_max ≤
      (processChunks dec cs r).utt_dur +
        chunkDur (processChunks dec cs r).sample_rate c := by
    rw [s2, s4, s5]
    linarith
  obtain ⟨f1, f2, f3, f4⟩ :=
    stepChunk_force_end dec (processChunks dec cs r) c s1 hge2
  refine ⟨s1, s3, ?_, ?_, ?_⟩
  · rw [happ, f2, s3]
  · rw [happ, f3, s6]
  · rw [happ]
    exact f1

/-- Witness for C4: at sample rate 1 and `t_max` = 2, one second of speech
stays IN_SPEECH and the next two-second speech chunk forces the end,
producing exactly one result. -/
theorem c4_witness :
    (processChunks decSpeech [[0]] rB).ep_state = .IN_SPEECH ∧
    (processChunks decSpeech [[0]] rB).result_queue = rB.result_queue ∧
    (processChunks decSpeech ([[0]] ++ [[0, 0]]) rB).result_queue.length =
      rB.result_queue.length + 1 ∧
    (processChunks decSpeech ([[0]] ++ [[0, 0]]) rB).num_results =
      rB.num_results + 1 ∧
    (processChunks decSpeech ([[0]] ++ [[0, 0]]) rB).ep_state =
      .WAITING_START :=
  c4_forced_end_at_t_max decSpeech rB [[0]] [0, 0]
    (by norm_num [rB, rA])
    rfl
    (by intro x hx; rfl)
    (by norm_num [rB, rA, dursSum, chunkDur])
    (by norm_num [rB, rA, dursSum, chunkDur])

end Vosk
